import Mathlib

set_option maxRecDepth 40000

/-!
Verification of the SML (Smart Message Language) decoder in `sml.py`
(class `Sml`): CRC16 engine, frame assembler (`parse_byte`) and the
schema-driven TLV decoder (`parse`).  All machine integers are modelled
as `Nat`/`Int`; byte strings as `List Nat` with elements `< 256`.
-/

/-! ## CRC16 engine (sml.py: `crc_slow`, `crc_init`, `crc`) -/

/-- CCITT polynom, reflected (the constant `polynom = 0x8408` in the source). -/
def polynom : Nat := 0x8408

/-- One inner bit iteration of `crc_slow`/`crc_init`:
`if crcsum & 0x01: crcsum = (crcsum >> 1) ^ polynom else: crcsum >>= 1`. -/
def crcBit (s : Nat) : Nat :=
  if s &&& 1 ≠ 0 then (s >>> 1) ^^^ polynom else s >>> 1

/-- `n` bit iterations (the source runs `for bit in range(8)`). -/
def crcBits : Nat → Nat → Nat
  | 0, s => s
  | n + 1, s => crcBits n (crcBit s)

/-- `Sml.crc_slow`: bit-by-bit CCITT-CRC16 (the reference implementation). -/
def crc_slow (data : List Nat) : Nat :=
  (data.foldl (fun s b => crcBits 8 (s ^^^ b)) 0xFFFF) ^^^ 0xFFFF

/-- `Sml.crc_init`: the 256-entry lookup table, entry `b` is 8 bit rounds on `b`. -/
def crc_init : List Nat := (List.range 256).map (fun b => crcBits 8 b)

/-- `self.crc_table` as populated by `crc_init`. -/
def crc_table : List Nat := crc_init

/-- `Sml.crc`: table-driven CCITT-CRC16,
`idx = byte ^ (crcsum & 0xFF); crcsum = crc_table[idx] ^ (crcsum >> 8)`. -/
def crc (data : List Nat) : Nat :=
  (data.foldl (fun s b => crc_table.getD (b ^^^ (s &&& 0xFF)) 0 ^^^ (s >>> 8)) 0xFFFF) ^^^ 0xFFFF

/-! ## Data model for decoded SML values and Python exceptions -/

/-- Decoded SML values: Python `None`, `bytes`, `bool`, `int`, `list`, `dict`
(with insertion order) as produced by `Sml.parse`. -/
inductive SmlValue where
  | none : SmlValue
  | bytes : List Nat → SmlValue
  | bool : Bool → SmlValue
  | int : Int → SmlValue
  | list : List SmlValue → SmlValue
  | dict : List (String × SmlValue) → SmlValue

/-- Python exceptions that can arise inside `Sml.parse` and `Sml.parse_byte`.
`outOfFuel` is a modelling artefact of the fueled loop and is unreachable when
the fuel exceeds the buffer length (see `parseLoop_fuel_mono`). -/
inductive PyErr where
  | smlException : String → PyErr
  | keyError : PyErr
  | indexError : PyErr
  | unboundLocal : PyErr
  | outOfFuel : PyErr
deriving DecidableEq, Repr

/-- Kind of a schema node (`'type'` field of `sml_struct` entries). -/
inductive NodeKind where
  | list : NodeKind
  | struct : NodeKind
deriving DecidableEq, Repr

/-- A schema entry: `{'type': 'list', 'name': str}` or `{'type': 'struct', 'name': [str]}`. -/
inductive NodeDef where
  | list : String → NodeDef
  | struct : List String → NodeDef
deriving DecidableEq, Repr

/-- `Sml.sml_struct`, the fixed structure schema (all entries are list/struct,
so the `raise SmlException('Unknown element type')` arm of the source is dead). -/
def sml_struct : String → Option NodeDef
  | "smlFile" => some (.list "smlMessage")
  | "smlMessage" => some (.struct ["transactionId", "groupNo", "abortOnError", "messageBody", "crc16", "endOfSmlMsg"])
  | "messageBody" => some (.struct ["messageId", "[messageId]"])
  | "message" => some (.list "message")
  | "OpenResponse" => some (.struct ["codepage", "clientId", "reqFileId", "serverId", "refTime", "smlVersion"])
  | "refTime" => some (.struct ["timeId", "[timeId]"])
  | "CloseResponse" => some (.struct ["globalSignature"])
  | "GetListResponse" => some (.struct ["clientId", "serverId", "listName", "actSensorTime", "valList", "listSignature", "actGatewayTime"])
  | "actSensorTime" => some (.struct ["timeId", "[timeId]"])
  | "actGatewayTime" => some (.struct ["timeId", "[timeId]"])
  | "valList" => some (.list "val")
  | "val" => some (.struct ["objName", "status", "valTime", "unit", "scaler", "value", "valueSignature"])
  | "valTime" => some (.struct ["timeId", "[timeId]"])
  | "secIndex" => some (.struct ["secIndex"])
  | "timestamp" => some (.struct ["timestamp"])
  | "localTimestamp" => some (.struct ["timestamp", "localOffset", "seasonTimeOffset"])
  | _ => Option.none

/-- `Sml.key_names`, the discriminant table. -/
def key_names (key : String) (v : Int) : Option String :=
  if key = "messageId" then
    if v = 257 then some "OpenResponse"
    else if v = 513 then some "CloseResponse"
    else if v = 1793 then some "GetListResponse"
    else Option.none
  else if key = "timeId" then
    if v = 1 then some "secIndex"
    else if v = 2 then some "timestamp"
    else if v = 3 then some "localTimestamp"
    else Option.none
  else Option.none

/-- Python dict lookup `d[k]` on an insertion-ordered association list. -/
def dictGet (d : List (String × SmlValue)) (k : String) : Option SmlValue :=
  match d with
  | [] => Option.none
  | (k', v) :: rest => if k' = k then some v else dictGet rest k

/-- Python dict assignment `d[k] = v`: update in place, else append. -/
def dictSet (d : List (String × SmlValue)) (k : String) (v : SmlValue) :
    List (String × SmlValue) :=
  match d with
  | [] => [(k, v)]
  | (k', v') :: rest => if k' = k then (k, v) :: rest else (k', v') :: dictSet rest k v

/-- A decoded value used as an integer dict key in `key_names[key][sml_dict[key]]`:
Python `bool` compares equal to `int` keys; every other value misses (the bare
`except:` in the source catches the resulting KeyError/TypeError alike). -/
def valueAsKey : SmlValue → Option Int
  | .int n => some n
  | .bool b => some (if b then 1 else 0)
  | _ => Option.none

/-- Python `str.find`: index of the first occurrence, or -1. -/
def pyFind (s : String) (c : Char) : Int :=
  match s.toList.findIdx? (· = c) with
  | some n => (n : Int)
  | Option.none => -1

/-- Normalise one Python slice endpoint for a sequence of length `n`. -/
def pySliceIdx (n : Nat) (i : Int) : Nat :=
  if i < 0 then ((n : Int) + i).toNat else min i.toNat n

/-- Python string slice `s[i:j]`. -/
def pyStrSlice (s : String) (i j : Int) : String :=
  String.mk (((s.toList).take (pySliceIdx s.toList.length j)).drop (pySliceIdx s.toList.length i))

/-- Python list indexing `xs[i]`: negative indices count from the end;
out of range is an IndexError (`Option.none`). -/
def pyIndex (xs : List String) (i : Int) : Option String :=
  let j : Int := if i < 0 then (xs.length : Int) + i else i
  if 0 ≤ j then xs[j.toNat]? else Option.none

/-- Big-endian unsigned integer value of a byte string (`int.from_bytes(_, 'big')`). -/
def bytesToNat (bs : List Nat) : Nat := bs.foldl (fun a b => a * 256 + b) 0

/-- `int.from_bytes(_, byteorder='big', signed=True)`. -/
def bytesToIntSigned (bs : List Nat) : Int :=
  if 2 * bytesToNat bs ≥ 256 ^ bs.length then (bytesToNat bs : Int) - (256 ^ bs.length : Nat)
  else (bytesToNat bs : Int)

/-- `Sml.pop_data`: return and remove the first `len` bytes of the buffer.
Python slice semantics: a negative `len` keeps `-len` bytes at the end. -/
def pop_data (len : Int) (data : List Nat) : List Nat × List Nat :=
  (data.take (pySliceIdx data.length len), data.drop (pySliceIdx data.length len))

/-- The statement `self.data = self.data[data_len:]` of the unknown-tag branch. -/
def pySliceFrom (data : List Nat) (i : Int) : List Nat :=
  data.drop (pySliceIdx data.length i)

/-- The `while tl & 0x80` continuation loop of the Type-Length field reader
(sml.py lines 225-229).  Returns (final tl byte, total length, TL-field byte
count, rest of buffer); popping from an empty buffer is an IndexError. -/
def readTL : Nat → Nat → Nat → List Nat → Except PyErr (Nat × Nat × Nat × List Nat)
  | tl, tl_len, tl_bytes, [] =>
    if tl &&& 0x80 = 0 then .ok (tl, tl_len, tl_bytes, []) else .error .indexError
  | tl, tl_len, tl_bytes, t :: rest =>
    if tl &&& 0x80 = 0 then .ok (tl, tl_len, tl_bytes, t :: rest)
    else readTL t (if t &&& 0x70 = 0 then tl_len * 16 + (t &&& 0x0F) else tl_len)
      (tl_bytes + 1) rest

/-- Field-name resolution for one struct position (sml.py lines 192-213),
including the `[key]` discriminant placeholders and their fallbacks. -/
def resolveElem (names : List String) (elements : Int)
    (sml_dict : List (String × SmlValue)) : Except PyErr String :=
  match pyIndex names ((names.length : Int) - elements) with
  | Option.none => .error .indexError
  | some elem0 =>
    let ob := pyFind elem0 '['
    let cb := pyFind elem0 ']'
    if ob ≠ -1 then
      let key := pyStrSlice elem0 (ob + 1) cb
      match ((dictGet sml_dict key).bind valueAsKey).bind (key_names key) with
      | Option.none => .ok (pyStrSlice key 0 (-2))
      | some key_str =>
        let elem_new := pyStrSlice elem0 0 ob ++ key_str
        if (sml_struct elem_new).isSome then .ok elem_new
        else .ok (pyStrSlice key 0 (-2))
    else .ok elem0

/-- The while loop of `Sml.parse` (sml.py lines 185-289).  One call =
one loop entry check; `etyp` models the Python local that stays unbound until
the first iteration assigns it; the returned list is the final `self.data`
(also when an exception propagates, since the source mutates in place).
The fuel only bounds the iteration count: every iteration consumes at least
one byte, so `data.length + 1` is always enough (see `parse`). -/
def parseLoop : Nat → String → Int → List Nat → List SmlValue →
    List (String × SmlValue) → Option NodeKind → Except PyErr SmlValue × List Nat
  | 0, _, elements, data, sml_list, sml_dict, etyp =>
    if data.isEmpty ∨ elements = 0 then
      (match etyp with
       | some .list => .ok (.list sml_list)
       | some .struct => .ok (.dict sml_dict)
       | Option.none => .error .unboundLocal, data)
    else (.error .outOfFuel, data)
  | fuel + 1, struct, elements, data, sml_list, sml_dict, etyp =>
    if data.isEmpty ∨ elements = 0 then
      (match etyp with
       | some .list => .ok (.list sml_list)
       | some .struct => .ok (.dict sml_dict)
       | Option.none => .error .unboundLocal, data)
    else
      match sml_struct struct with
      | Option.none => (.error .keyError, data)
      | some nd =>
        let ekres : Except PyErr (NodeKind × String) :=
          match nd with
          | .list nm => .ok (.list, nm)
          | .struct names =>
            match resolveElem names elements sml_dict with
            | .error e => .error e
            | .ok nm => .ok (.struct, nm)
        match ekres with
        | .error e => (.error e, data)
        | .ok (ekind, elem) =>
          match data with
          | [] => (.error .indexError, data)
          | tl0 :: d1 =>
            match readTL tl0 (tl0 &&& 0x0F) 1 d1 with
            | .error e => (.error e, d1)
            | .ok (tlF, tl_len, tl_bytes, d1) =>
              let tl_typ := tl0 &&& 0x70
              let data_len : Int := (tl_len : Int) - (tl_bytes : Int)
              let store : SmlValue → List SmlValue × List (String × SmlValue) := fun v =>
                match ekind with
                | .list => (sml_list ++ [v], sml_dict)
                | .struct => (sml_list, dictSet sml_dict elem v)
              if tl_typ = 0x00 then
                let v : SmlValue :=
                  if data_len = 0 then .none
                  else if tlF = 0 then .bytes [0]
                  else .bytes (pop_data data_len d1).1
                let d2 := if data_len = 0 ∨ tlF = 0 then d1 else (pop_data data_len d1).2
                parseLoop fuel struct (elements - 1) d2 (store v).1 (store v).2 (some ekind)
              else if tl_typ = 0x40 then
                let p := pop_data data_len d1
                let v : SmlValue := .bool (bytesToNat p.1 != 0)
                parseLoop fuel struct (elements - 1) p.2 (store v).1 (store v).2 (some ekind)
              else if tl_typ = 0x50 then
                let p := pop_data data_len d1
                let v : SmlValue := .int (bytesToIntSigned p.1)
                parseLoop fuel struct (elements - 1) p.2 (store v).1 (store v).2 (some ekind)
              else if tl_typ = 0x60 then
                let p := pop_data data_len d1
                let v : SmlValue := .int ((bytesToNat p.1 : Int))
                parseLoop fuel struct (elements - 1) p.2 (store v).1 (store v).2 (some ekind)
              else if tl_typ = 0x70 then
                match parseLoop fuel elem (tl_len : Int) d1 [] [] Option.none with
                | (.error e, d2) => (.error e, d2)
                | (.ok v, d2) =>
                  parseLoop fuel struct (elements - 1) d2 (store v).1 (store v).2 (some ekind)
              else
                parseLoop fuel struct elements (pySliceFrom d1 data_len) sml_list sml_dict
                  (some ekind)

/-- `Sml.parse(struct, elements)` acting on a buffer: runs the loop with enough
fuel (every iteration consumes at least one byte of `data`). -/
def parse (struct : String) (elements : Int) (data : List Nat) :
    Except PyErr SmlValue × List Nat :=
  parseLoop (data.length + 1) struct elements data [] [] Option.none

/-- The mutable state of one `Sml` instance (constructor `Sml.__init__`). -/
structure Sml where
  sml_file : SmlValue
  data : List Nat
  esc_sequence : Bool
  esc_count : Int
  message_started : Bool

/-- A freshly constructed `Sml()` object. -/
def Sml.init : Sml :=
  { sml_file := .list [], data := [], esc_sequence := false, esc_count := 0,
    message_started := false }

/-- `Sml.parse_byte`: append one byte, run the escape-sequence state machine,
and on a CRC-validated end-of-message escape code decode the payload.
Returns the Python return value together with the mutated object, or the
exception escaping the call. -/
def parse_byte (s : Sml) (byte : Nat) : Except PyErr (Bool × Sml) :=
  let s := { s with data := s.data ++ [byte] }
  if s.esc_sequence = false then
    if byte = 0x1B then
      if s.esc_count + 1 = (4 : Int) then
        .ok (false, { s with esc_count := s.esc_count + 1, esc_sequence := true })
      else .ok (false, { s with esc_count := s.esc_count + 1 })
    else .ok (false, { s with esc_count := 0 })
  else
    if s.esc_count - 1 ≠ (0 : Int) then .ok (false, { s with esc_count := s.esc_count - 1 })
    else
      let s := { s with esc_count := 0, esc_sequence := false }
      let esc := s.data.drop (s.data.length - 4)
      if esc = [0x1B, 0x1B, 0x1B, 0x1B] then .ok (false, s)
      else if esc = [0x01, 0x01, 0x01, 0x01] then
        .ok (false, { s with message_started := true, data := s.data.drop (s.data.length - 8) })
      else if esc.take 1 = [0x02] then .ok (false, s)
      else if esc.take 1 = [0x03] then .ok (false, s)
      else if esc.take 1 = [0x04] then .ok (false, s)
      else if esc.take 1 = [0x1A] then
        let started := s.message_started
        let s := { s with message_started := false }
        if started then
          let padding_bytes := esc.getD 1 0
          let crc_msg := esc.getD 3 0 * 256 + esc.getD 2 0
          if crc (s.data.take (s.data.length - 2)) = crc_msg then
            let d0 := s.data.drop 8
            let d1 := d0.take (d0.length - (8 + padding_bytes))
            match parse "smlFile" (-1) d1 with
            | (.ok v, rest) => .ok (true, { s with sml_file := v, data := rest })
            | (.error (.smlException _), rest) => .ok (true, { s with data := rest })
            | (.error e, _) => .error e
          else .ok (false, { s with data := [] })
        else .ok (false, s)
      else .ok (false, s)

/-- Feed a byte sequence one byte at a time, collecting the returned booleans;
stops at the first exception escaping `parse_byte` (as the Python caller would). -/
def feedBytes (s : Sml) : List Nat → Except PyErr (List Bool × Sml)
  | [] => .ok ([], s)
  | b :: bs =>
    match parse_byte s b with
    | .error e => .error e
    | .ok (r, s') =>
      match feedBytes s' bs with
      | .error e => .error e
      | .ok (rs, s'') => .ok (r :: rs, s'')

/-- A byte sequence that the NORMAL-mode scanner passes through without ever
completing an escape run: starting from an escape-run count `c`, the count
never reaches 4, and it is 0 again at the end. -/
def scanOk : Int → List Nat → Bool
  | c, [] => c == 0
  | c, b :: bs => if b = 27 then (c + 1 != 4) && scanOk (c + 1) bs else scanOk 0 bs

/-- A wire frame: 4×1B escape intro, `01 01 01 01` start marker, payload,
padding, 4×1B escape intro, end code `1A pp c1 c2`. -/
def mkFrame (payload padding : List Nat) (pp c1 c2 : Nat) : List Nat :=
  [27, 27, 27, 27, 1, 1, 1, 1] ++ payload ++ padding ++ [27, 27, 27, 27, 26, pp, c1, c2]

/-! ### CRC equivalence lemmas -/

theorem crcBit_xor_double (x m : Nat) : crcBit (x ^^^ 2 * m) = crcBit x ^^^ m := by
  have hand : (x ^^^ 2 * m) &&& 1 = x &&& 1 := by
    rw [Nat.and_xor_distrib_right, Nat.and_one_is_mod (2 * m), Nat.mul_mod_right, Nat.xor_zero]
  have hdiv : (x ^^^ 2 * m) >>> 1 = (x >>> 1) ^^^ m := by
    rw [Nat.shiftRight_succ, Nat.shiftRight_zero, Nat.shiftRight_succ, Nat.shiftRight_zero,
      Nat.xor_div_two, Nat.mul_div_cancel_left m (by norm_num : 0 < 2)]
  unfold crcBit
  rw [hand, hdiv]
  by_cases h : x &&& 1 ≠ 0
  · rw [if_pos h, if_pos h, Nat.xor_assoc, Nat.xor_comm m polynom, ← Nat.xor_assoc]
  · rw [if_neg h, if_neg h]

theorem crcBits_xor_shiftLeft (n : Nat) : ∀ x m : Nat,
    crcBits n (x ^^^ (m <<< n)) = crcBits n x ^^^ m := by
  induction n with
  | zero =>
    intro x m
    show x ^^^ m <<< 0 = x ^^^ m
    rw [Nat.shiftLeft_zero]
  | succ k ih =>
    intro x m
    have h1 : m <<< (k + 1) = 2 * (m <<< k) := Nat.shiftLeft_succ m k
    show crcBits k (crcBit (x ^^^ m <<< (k + 1))) = crcBits k (crcBit x) ^^^ m
    rw [h1, crcBit_xor_double, ih]

theorem lo_hi_decomp (x : Nat) : (x &&& 255) ^^^ ((x >>> 8) <<< 8) = x := by
  apply Nat.eq_of_testBit_eq
  intro i
  have h255 : (255 : Nat) = 2 ^ 8 - 1 := by norm_num
  rw [Nat.testBit_xor, Nat.testBit_and, h255, Nat.testBit_two_pow_sub_one,
    Nat.testBit_shiftLeft, Nat.testBit_shiftRight]
  by_cases h : i < 8
  · have h8 : ¬ 8 ≤ i := Nat.not_le.mpr h
    simp [h, h8]
  · have h8 : 8 ≤ i := Nat.not_lt.mp h
    have : 8 + (i - 8) = i := by omega
    simp [h, h8, this]

theorem shiftRight_xor_distrib (x y k : Nat) : (x ^^^ y) >>> k = (x >>> k) ^^^ (y >>> k) := by
  apply Nat.eq_of_testBit_eq
  intro i
  simp [Nat.testBit_xor, Nat.testBit_shiftRight]

theorem crc_table_getD (i : Nat) (h : i < 256) : crc_table.getD i 0 = crcBits 8 i := by
  rw [crc_table, crc_init, List.getD_eq_getElem?_getD, List.getElem?_map, List.getElem?_range h]
  rfl

theorem crc_step_eq (s b : Nat) (hb : b < 256) :
    crcBits 8 (s ^^^ b) = crc_table.getD (b ^^^ (s &&& 255)) 0 ^^^ (s >>> 8) := by
  have hlo : s &&& 255 < 256 := Nat.and_lt_two_pow s (n := 8) (by norm_num)
  have hidx : b ^^^ (s &&& 255) < 256 := Nat.xor_lt_two_pow (n := 8) hb hlo
  have hdecomp := lo_hi_decomp (s ^^^ b)
  have hmask : (s ^^^ b) &&& 255 = b ^^^ (s &&& 255) := by
    rw [Nat.and_xor_distrib_right]
    have hb255 : b &&& 255 = b := by
      have : (255 : Nat) = 2 ^ 8 - 1 := by norm_num
      rw [this, Nat.and_pow_two_sub_one_of_lt_two_pow hb]
    rw [hb255, Nat.xor_comm (s &&& 255) b]
  have hshift : (s ^^^ b) >>> 8 = s >>> 8 := by
    rw [shiftRight_xor_distrib]
    have : b >>> 8 = 0 := by
      rw [Nat.shiftRight_eq_div_pow]
      exact Nat.div_eq_of_lt hb
    rw [this, Nat.xor_zero]
  calc crcBits 8 (s ^^^ b)
      = crcBits 8 (((s ^^^ b) &&& 255) ^^^ (((s ^^^ b) >>> 8) <<< 8)) := by rw [hdecomp]
    _ = crcBits 8 ((s ^^^ b) &&& 255) ^^^ ((s ^^^ b) >>> 8) := crcBits_xor_shiftLeft 8 _ _
    _ = crc_table.getD (b ^^^ (s &&& 255)) 0 ^^^ (s >>> 8) := by
        rw [hmask, hshift, crc_table_getD _ hidx]

theorem crc_foldl_eq : ∀ (data : List Nat) (s : Nat), (∀ b ∈ data, b < 256) →
    data.foldl (fun s b => crcBits 8 (s ^^^ b)) s
      = data.foldl (fun s b => crc_table.getD (b ^^^ (s &&& 0xFF)) 0 ^^^ (s >>> 8)) s := by
  intro data
  induction data with
  | nil => intro s _; rfl
  | cons b bs ih =>
    intro s h
    have hb : b < 256 := h b (List.mem_cons_self b bs)
    have hbs : ∀ x ∈ bs, x < 256 := fun x hx => h x (List.mem_cons_of_mem b hx)
    show bs.foldl _ (crcBits 8 (s ^^^ b)) = bs.foldl _ (crc_table.getD (b ^^^ (s &&& 0xFF)) 0 ^^^ (s >>> 8))
    rw [crc_step_eq s b hb]
    exact ih _ hbs

/-- C1: for every sequence of bytes, the table-driven CRC16 `crc` (accumulator
initialised to 0xFFFF, per-byte table step, final XOR with 0xFFFF, table built by
`crc_init`) returns the same value as the bit-by-bit reference `crc_slow`. -/
theorem C1_crc_table_eq_slow (data : List Nat) (h : ∀ b ∈ data, b < 256) :
    crc data = crc_slow data := by
  unfold crc crc_slow
  rw [crc_foldl_eq data 0xFFFF h]

theorem C1_crc_table_eq_slow_witness :
    (∀ b ∈ [0x12, 0x34, 0x56], b < 256) ∧ crc [0x12, 0x34, 0x56] = crc_slow [0x12, 0x34, 0x56] :=
  ⟨by decide, C1_crc_table_eq_slow [0x12, 0x34, 0x56] (by decide)⟩

/-! ### List helpers for the frame assembler proofs -/

theorem drop_add_append (D l : List Nat) (n : Nat) :
    (D ++ l).drop (D.length + n) = l.drop n := by
  induction D with
  | nil => simp
  | cons x xs ih => simp [Nat.succ_add]

theorem take_add_append (D l : List Nat) (n : Nat) :
    (D ++ l).take (D.length + n) = D ++ l.take n := by
  induction D with
  | nil => simp
  | cons x xs ih => simpa [Nat.succ_add] using ih

theorem drop_tail_append (D l : List Nat) (n : Nat) (h : n ≤ l.length) :
    (D ++ l).drop ((D ++ l).length - n) = l.drop (l.length - n) := by
  have he : (D ++ l).length - n = D.length + (l.length - n) := by
    simp only [List.length_append]; omega
  rw [he, drop_add_append]

theorem take_head_append (D l : List Nat) (n : Nat) (h : n ≤ l.length) :
    (D ++ l).take ((D ++ l).length - n) = D ++ l.take (l.length - n) := by
  have he : (D ++ l).length - n = D.length + (l.length - n) := by
    simp only [List.length_append]; omega
  rw [he, take_add_append]

theorem feedBytes_append_ok {s s' s'' : Sml} {ra rb : List Bool} (a b : List Nat)
    (ha : feedBytes s a = .ok (ra, s')) (hb : feedBytes s' b = .ok (rb, s'')) :
    feedBytes s (a ++ b) = .ok (ra ++ rb, s'') := by
  induction a generalizing s ra with
  | nil =>
    simp only [feedBytes] at ha
    obtain ⟨h1, h2⟩ := Prod.mk.inj (Except.ok.inj ha)
    subst h1; subst h2
    rw [List.nil_append]; exact hb
  | cons x xs ih =>
    rw [List.cons_append]
    simp only [feedBytes] at ha ⊢
    match hpb : parse_byte s x with
    | .error e => simp [hpb] at ha
    | .ok p =>
      simp only [hpb] at ha ⊢
      match hfb : feedBytes p.2 xs with
      | .error e => simp [hfb] at ha
      | .ok (rs, u) =>
        simp only [hfb] at ha
        obtain ⟨h1, h2⟩ := Prod.mk.inj (Except.ok.inj ha)
        subst h2
        rw [ih hfb, ← h1]
        rfl

/-! ### Single-byte behaviour of the frame assembler -/

theorem parse_byte_esc_run (s : Sml) (c : Int) (h1 : s.esc_sequence = false)
    (h2 : s.esc_count = c) (h3 : ¬ c + 1 = 4) :
    parse_byte s 27 = .ok (false, { s with data := s.data ++ [27], esc_count := c + 1 }) := by
  simp [parse_byte, h1, h2, h3]

theorem parse_byte_esc_enter (s : Sml) (h1 : s.esc_sequence = false)
    (h2 : s.esc_count = 3) :
    parse_byte s 27 = .ok (false,
      { s with data := s.data ++ [27], esc_count := 4, esc_sequence := true }) := by
  simp [parse_byte, h1, h2]

theorem parse_byte_normal (s : Sml) (b : Nat) (h1 : s.esc_sequence = false) (h3 : b ≠ 27) :
    parse_byte s b = .ok (false, { s with data := s.data ++ [b], esc_count := 0 }) := by
  simp [parse_byte, h1, h3]

theorem parse_byte_esc_down (s : Sml) (b : Nat) (c : Int) (h1 : s.esc_sequence = true)
    (h2 : s.esc_count = c) (h3 : ¬ c - 1 = 0) :
    parse_byte s b = .ok (false, { s with data := s.data ++ [b], esc_count := c - 1 }) := by
  simp [parse_byte, h1, h2, h3]

theorem parse_byte_begin (s : Sml) (b : Nat) (h1 : s.esc_sequence = true)
    (h2 : s.esc_count = 1)
    (hlast : (s.data ++ [b]).drop (s.data.length - 3) = [1, 1, 1, 1]) :
    parse_byte s b = .ok (false,
      { s with data := (s.data ++ [b]).drop (s.data.length - 7),
               esc_count := 0, esc_sequence := false, message_started := true }) := by
  simp [parse_byte, h1, h2, hlast]

theorem parse_byte_end_ok (s : Sml) (b pp c1 c2 : Nat) (v : SmlValue) (rest : List Nat)
    (h1 : s.esc_sequence = true) (h2 : s.esc_count = 1) (h4 : s.message_started = true)
    (hlast : (s.data ++ [b]).drop (s.data.length - 3) = [26, pp, c1, c2])
    (hcrc : crc ((s.data ++ [b]).take (s.data.length - 1)) = c2 * 256 + c1)
    (hparse : parse "smlFile" (-1)
        (((s.data ++ [b]).drop 8).take (s.data.length - 7 - (8 + pp))) = (.ok v, rest)) :
    parse_byte s b = .ok (true,
      { s with sml_file := v, data := rest, esc_sequence := false, esc_count := 0,
               message_started := false }) := by
  have hidx : forall k : Nat, (s.data ++ [b])[s.data.length - 3 + k]? = [26, pp, c1, c2][k]? := by
    intro k
    rw [← List.getElem?_drop, hlast]
  have g1 : (s.data ++ [b])[s.data.length - 3 + 1]?.getD 0 = pp := by rw [hidx 1]; rfl
  have g2 : (s.data ++ [b])[s.data.length - 3 + 2]?.getD 0 = c1 := by rw [hidx 2]; rfl
  have g3 : (s.data ++ [b])[s.data.length - 3 + 3]?.getD 0 = c2 := by rw [hidx 3]; rfl
  simp [parse_byte, h1, h2, h4, hlast, g1, g2, g3, hcrc, hparse]

theorem parse_byte_end_bad (s : Sml) (b pp c1 c2 : Nat)
    (h1 : s.esc_sequence = true) (h2 : s.esc_count = 1) (h4 : s.message_started = true)
    (hlast : (s.data ++ [b]).drop (s.data.length - 3) = [26, pp, c1, c2])
    (hcrc : ¬ crc ((s.data ++ [b]).take (s.data.length - 1)) = c2 * 256 + c1) :
    parse_byte s b = .ok (false,
      { s with data := [], esc_sequence := false, esc_count := 0,
               message_started := false }) := by
  have hidx : forall k : Nat, (s.data ++ [b])[s.data.length - 3 + k]? = [26, pp, c1, c2][k]? := by
    intro k
    rw [← List.getElem?_drop, hlast]
  have g2 : (s.data ++ [b])[s.data.length - 3 + 2]?.getD 0 = c1 := by rw [hidx 2]; rfl
  have g3 : (s.data ++ [b])[s.data.length - 3 + 3]?.getD 0 = c2 := by rw [hidx 3]; rfl
  simp [parse_byte, h1, h2, h4, hlast, g2, g3, hcrc]

theorem getElem?_add_append (D l : List Nat) (n : Nat) : (D ++ l)[D.length + n]? = l[n]? := by
  induction D with
  | nil => simp
  | cons x xs ih => simp [Nat.succ_add]; exact ih

theorem feed_start (s : Sml) (h1 : s.esc_sequence = false) (h2 : s.esc_count = 0) :
    feedBytes s [27, 27, 27, 27, 1, 1, 1, 1] = .ok (List.replicate 8 false,
      { s with data := [27, 27, 27, 27, 1, 1, 1, 1], esc_count := 0, esc_sequence := false,
               message_started := true }) := by
  simp [feedBytes, parse_byte, h1, h2, drop_add_append, List.append_assoc]

theorem feed_end_ok (s : Sml) (pp c1 c2 : Nat) (v : SmlValue) (rest : List Nat)
    (h1 : s.esc_sequence = false) (h2 : s.esc_count = 0) (h4 : s.message_started = true)
    (hcrc : crc (s.data ++ [27, 27, 27, 27, 26, pp]) = c2 * 256 + c1)
    (hparse : parse "smlFile" (-1)
        (((s.data ++ [27, 27, 27, 27, 26, pp, c1, c2]).drop 8).take (s.data.length - (8 + pp)))
        = (.ok v, rest)) :
    feedBytes s [27, 27, 27, 27, 26, pp, c1, c2] = .ok (List.replicate 7 false ++ [true],
      { s with sml_file := v, data := rest, esc_sequence := false, esc_count := 0,
               message_started := false }) := by
  simp [feedBytes, parse_byte, h1, h2, h4, drop_add_append, take_add_append,
    getElem?_add_append, List.append_assoc, hcrc, hparse]

theorem feed_end_bad (s : Sml) (pp c1 c2 : Nat)
    (h1 : s.esc_sequence = false) (h2 : s.esc_count = 0) (h4 : s.message_started = true)
    (hcrc : ¬ crc (s.data ++ [27, 27, 27, 27, 26, pp]) = c2 * 256 + c1) :
    feedBytes s [27, 27, 27, 27, 26, pp, c1, c2] = .ok (List.replicate 8 false,
      { s with data := [], esc_sequence := false, esc_count := 0,
               message_started := false }) := by
  simp [feedBytes, parse_byte, h1, h2, h4, drop_add_append, take_add_append,
    getElem?_add_append, List.append_assoc, hcrc]

theorem scanOk_nil {c : Int} (h : scanOk c [] = true) : c = 0 := by
  simpa [scanOk] using h

theorem scanOk_cons_27 {c : Int} {bs : List Nat} (h : scanOk c (27 :: bs) = true) :
    ¬ c + 1 = 4 ∧ scanOk (c + 1) bs = true := by
  by_cases hne : c + 1 = 4
  · exfalso
    simp [scanOk, hne] at h
  · exact ⟨hne, by simpa [scanOk, hne] using h⟩

theorem scanOk_cons_other {c : Int} {b : Nat} {bs : List Nat} (hb : ¬ b = 27)
    (h : scanOk c (b :: bs) = true) : scanOk 0 bs = true := by
  simpa [scanOk, hb] using h

theorem feed_scan (bs : List Nat) : ∀ (s : Sml) (c : Int), s.esc_sequence = false →
    s.esc_count = c → scanOk c bs = true →
    feedBytes s bs = .ok (List.replicate bs.length false,
      { s with data := s.data ++ bs, esc_count := 0 }) := by
  induction bs with
  | nil =>
    intro s c h1 h2 hok
    have hc := scanOk_nil hok
    subst hc
    cases s
    simp_all [feedBytes]
  | cons b bs ih =>
    intro s c h1 h2 hok
    by_cases hb : b = 27
    · subst hb
      obtain ⟨hne, hrest⟩ := scanOk_cons_27 hok
      have hs := parse_byte_esc_run s c h1 h2 hne
      have hi := ih { s with data := s.data ++ [27], esc_count := c + 1 } (c + 1)
        (by simp [h1]) rfl hrest
      simp only [feedBytes, hs, hi]
      simp [List.append_assoc, List.replicate_succ]
    · have hs := parse_byte_normal s b h1 hb
      have hi := ih { s with data := s.data ++ [b], esc_count := 0 } 0 (by simp [h1]) rfl
        (scanOk_cons_other hb hok)
      simp only [feedBytes, hs, hi]
      simp [List.append_assoc, List.replicate_succ]


theorem replicate_false_merge (n : Nat) (t : List Bool) :
    (List.replicate 8 false ++ List.replicate n false) ++ (List.replicate 7 false ++ t)
      = List.replicate (n + 15) false ++ t := by
  rw [List.append_replicate_replicate, ← List.append_assoc, List.append_replicate_replicate]
  congr 2
  omega

theorem feed_frame_ok (s : Sml) (payload padding : List Nat) (pp c1 c2 : Nat)
    (v : SmlValue) (rest : List Nat)
    (h1 : s.esc_sequence = false) (h2 : s.esc_count = 0)
    (hscan : scanOk 0 (payload ++ padding) = true)
    (hpp : pp = padding.length)
    (hcrc : crc ([27, 27, 27, 27, 1, 1, 1, 1] ++ payload ++ padding ++ [27, 27, 27, 27, 26, pp])
      = c2 * 256 + c1)
    (hparse : parse "smlFile" (-1) payload = (.ok v, rest)) :
    feedBytes s (mkFrame payload padding pp c1 c2)
      = .ok (List.replicate ((payload ++ padding).length + 15) false ++ [true],
             { s with sml_file := v, data := rest, esc_sequence := false, esc_count := 0,
                      message_started := false }) := by
  have f1 := feed_start s h1 h2
  have f2 := feed_scan (payload ++ padding)
    { s with data := [27, 27, 27, 27, 1, 1, 1, 1], esc_count := 0, esc_sequence := false,
             message_started := true } 0 rfl rfl hscan
  have hcrc2 : crc (([27, 27, 27, 27, 1, 1, 1, 1] ++ (payload ++ padding))
      ++ [27, 27, 27, 27, 26, pp]) = c2 * 256 + c1 := by
    simpa [List.append_assoc] using hcrc
  have harg : ((([27, 27, 27, 27, 1, 1, 1, 1] ++ (payload ++ padding))
        ++ [27, 27, 27, 27, 26, pp, c1, c2]).drop 8).take
        (([27, 27, 27, 27, 1, 1, 1, 1] ++ (payload ++ padding)).length - (8 + pp)) = payload := by
    have hlen : ([27, 27, 27, 27, 1, 1, 1, 1] ++ (payload ++ padding)).length - (8 + pp)
        = payload.length := by
      simp [hpp]
      omega
    rw [hlen]
    have hd : (([27, 27, 27, 27, 1, 1, 1, 1] ++ (payload ++ padding))
        ++ [27, 27, 27, 27, 26, pp, c1, c2]).drop 8
        = payload ++ (padding ++ [27, 27, 27, 27, 26, pp, c1, c2]) := by
      simp [List.append_assoc]
    rw [hd, List.take_left]
  have f3 := feed_end_ok
    { s with data := [27, 27, 27, 27, 1, 1, 1, 1] ++ (payload ++ padding), esc_count := 0,
             esc_sequence := false, message_started := true } pp c1 c2 v rest rfl rfl rfl
    hcrc2 (by rw [harg]; exact hparse)
  have hAB := feedBytes_append_ok _ _ f1 f2
  have hABC := feedBytes_append_ok _ _ hAB f3
  have hfr : mkFrame payload padding pp c1 c2
      = ([27, 27, 27, 27, 1, 1, 1, 1] ++ (payload ++ padding)) ++ [27, 27, 27, 27, 26, pp, c1, c2] := by
    simp [mkFrame, List.append_assoc]
  rw [hfr, hABC, replicate_false_merge]

theorem replicate_false_merge_all (n : Nat) :
    (List.replicate 8 false ++ List.replicate n false) ++ List.replicate 8 false
      = List.replicate (n + 16) false := by
  rw [List.append_replicate_replicate, List.append_replicate_replicate]
  congr 1
  omega

theorem feed_frame_bad (s : Sml) (payload padding : List Nat) (pp c1 c2 : Nat)
    (h1 : s.esc_sequence = false) (h2 : s.esc_count = 0)
    (hscan : scanOk 0 (payload ++ padding) = true)
    (hcrc : ¬ crc ([27, 27, 27, 27, 1, 1, 1, 1] ++ payload ++ padding ++ [27, 27, 27, 27, 26, pp])
      = c2 * 256 + c1) :
    feedBytes s (mkFrame payload padding pp c1 c2)
      = .ok (List.replicate ((payload ++ padding).length + 16) false,
             { s with data := [], esc_sequence := false, esc_count := 0,
                      message_started := false }) := by
  have f1 := feed_start s h1 h2
  have f2 := feed_scan (payload ++ padding)
    { s with data := [27, 27, 27, 27, 1, 1, 1, 1], esc_count := 0, esc_sequence := false,
             message_started := true } 0 rfl rfl hscan
  have hcrc2 : ¬ crc (([27, 27, 27, 27, 1, 1, 1, 1] ++ (payload ++ padding))
      ++ [27, 27, 27, 27, 26, pp]) = c2 * 256 + c1 := by
    intro hx
    exact hcrc (by simpa [List.append_assoc] using hx)
  have f3 := feed_end_bad
    { s with data := [27, 27, 27, 27, 1, 1, 1, 1] ++ (payload ++ padding), esc_count := 0,
             esc_sequence := false, message_started := true } pp c1 c2 rfl rfl rfl hcrc2
  have hAB := feedBytes_append_ok _ _ f1 f2
  have hABC := feedBytes_append_ok _ _ hAB f3
  have hfr : mkFrame payload padding pp c1 c2
      = ([27, 27, 27, 27, 1, 1, 1, 1] ++ (payload ++ padding)) ++ [27, 27, 27, 27, 26, pp, c1, c2] := by
    simp [mkFrame, List.append_assoc]
  rw [hfr, hABC, replicate_false_merge_all]

/-! ### Claims C2, C3, C4: end-of-message handling and framing round trips -/

/-- C2 (amended): when `parse_byte` completes an end-of-message escape code
`1A pp c1 c2` while `messageStarted` is true, the CRC is computed over all
buffered bytes except the final two and compared with the trailing two bytes
read as a LITTLE-endian 16-bit value (`c2*256 + c1`, the source reverses them
with `esc[:-3:-1]`); on a match the leading 8 bytes and the trailing `8 + pp`
bytes are removed, the remaining bytes are decoded as `smlFile` (here: the
decode returns normally), the call returns `True`, and `messageStarted` is
reset to false. -/
theorem C2_end_of_message (s : Sml) (b pp c1 c2 : Nat) (v : SmlValue) (rest : List Nat)
    (h1 : s.esc_sequence = true) (h2 : s.esc_count = 1) (h4 : s.message_started = true)
    (hlast : (s.data ++ [b]).drop (s.data.length - 3) = [26, pp, c1, c2])
    (hcrc : crc ((s.data ++ [b]).take (s.data.length - 1)) = c2 * 256 + c1)
    (hparse : parse "smlFile" (-1)
        (((s.data ++ [b]).drop 8).take (s.data.length - 7 - (8 + pp))) = (.ok v, rest)) :
    parse_byte s b = .ok (true,
      { s with sml_file := v, data := rest, esc_sequence := false, esc_count := 0,
               message_started := false }) :=
  parse_byte_end_ok s b pp c1 c2 v rest h1 h2 h4 hlast hcrc hparse

theorem C2_end_of_message_witness :
    parse_byte ⟨.list [], [27, 27, 27, 27, 1, 1, 1, 1, 0x71, 0x01, 27, 27, 27, 27, 26, 0, 187],
        true, 1, true⟩ 80
      = .ok (true, ⟨.list [.dict [("endOfSmlMsg", .none)]], [], false, 0, false⟩) :=
  C2_end_of_message _ 80 0 187 80 (.list [.dict [("endOfSmlMsg", .none)]]) []
    rfl rfl rfl rfl rfl rfl

/-- C2 counterexample: a frame whose trailing CRC bytes `c1 c2 = 80 187` read
as a BIG-endian value equal the computed CRC (`80*256 + 187 = crc`), as the
claim demands for acceptance — yet the code rejects the frame: every call
returns false and the buffer is discarded (the code compares little-endian). -/
theorem C2_big_endian_refuted :
    crc ((mkFrame [0x71, 0x01] [] 0 80 187).take 16) = 80 * 256 + 187 ∧
    feedBytes Sml.init (mkFrame [0x71, 0x01] [] 0 80 187)
      = .ok (List.replicate 18 false,
             { sml_file := .list [], data := [], esc_sequence := false, esc_count := 0,
               message_started := false }) :=
  ⟨rfl, rfl⟩

/-- C3 (amended): feeding a well-formed frame (start marker, escape-free
payload and padding, end marker with CRC correct in the code's little-endian
reading) byte-by-byte into a fresh `Sml` yields false on every byte before the
last and, provided the payload's TLV decode returns normally, true exactly
once, on the final CRC byte. -/
theorem C3_frame_roundtrip (payload padding : List Nat) (pp c1 c2 : Nat)
    (v : SmlValue) (rest : List Nat)
    (hscan : scanOk 0 (payload ++ padding) = true)
    (hpp : pp = padding.length)
    (hcrc : crc ([27, 27, 27, 27, 1, 1, 1, 1] ++ payload ++ padding ++ [27, 27, 27, 27, 26, pp])
      = c2 * 256 + c1)
    (hparse : parse "smlFile" (-1) payload = (.ok v, rest)) :
    feedBytes Sml.init (mkFrame payload padding pp c1 c2)
      = .ok (List.replicate ((payload ++ padding).length + 15) false ++ [true],
             { sml_file := v, data := rest, esc_sequence := false, esc_count := 0,
               message_started := false }) :=
  feed_frame_ok Sml.init payload padding pp c1 c2 v rest rfl rfl hscan hpp hcrc hparse

theorem C3_frame_roundtrip_witness :
    scanOk 0 ([0x71, 0x01] ++ []) = true ∧
    (0 : Nat) = List.length ([] : List Nat) ∧
    crc ([27, 27, 27, 27, 1, 1, 1, 1] ++ [0x71, 0x01] ++ [] ++ [27, 27, 27, 27, 26, 0])
      = 80 * 256 + 187 ∧
    parse "smlFile" (-1) [0x71, 0x01] = (.ok (.list [.dict [("endOfSmlMsg", .none)]]), []) ∧
    feedBytes Sml.init (mkFrame [0x71, 0x01] [] 0 187 80)
      = .ok (List.replicate 17 false ++ [true],
             { sml_file := .list [.dict [("endOfSmlMsg", .none)]], data := [],
               esc_sequence := false, esc_count := 0, message_started := false }) :=
  ⟨rfl, rfl, rfl, rfl,
    C3_frame_roundtrip [0x71, 0x01] [] 0 187 80 (.list [.dict [("endOfSmlMsg", .none)]]) []
      rfl rfl rfl rfl⟩

/-- C3 counterexample: the well-formed frame with EMPTY payload and correct
CRC (`crc = 229*256 + 198` over all bytes but the last two) does NOT yield
true on its final CRC byte: the decode of the empty payload leaves the Python
local `etyp` unbound and the resulting error escapes `parse_byte`. -/
theorem C3_empty_payload_refuted :
    crc ((mkFrame [] [] 0 198 229).take 14) = 229 * 256 + 198 ∧
    feedBytes Sml.init (mkFrame [] [] 0 198 229) = .error .unboundLocal :=
  ⟨rfl, rfl⟩

theorem xor_shiftLeft_one_ne_self (a k : Nat) : ¬ a ^^^ (1 <<< k) = a := by
  intro h
  have h2 : a ^^^ (a ^^^ (1 <<< k)) = a ^^^ a := congrArg (a ^^^ ·) h
  rw [← Nat.xor_assoc, Nat.xor_self, Nat.zero_xor] at h2
  have hpos : 0 < 1 <<< k := by
    rw [Nat.shiftLeft_eq, Nat.one_mul]
    exact Nat.two_pow_pos k
  omega

/-- C4: if an otherwise well-formed frame has one bit of its trailing CRC bytes
flipped (bit `k` of the 16), every `parse_byte` call returns false, no decode is
attempted, and the raw buffer is discarded entirely; feeding a subsequent valid
frame (whose payload decodes normally) still yields its single true on the
final CRC byte — resynchronisation holds. -/
theorem C4_crc_reject_and_resync (payload padding : List Nat) (pp c1 c2 k : Nat)
    (payload2 padding2 : List Nat) (pp2 d1 d2 : Nat) (v2 : SmlValue) (rest2 : List Nat)
    (hscan : scanOk 0 (payload ++ padding) = true)
    (_hk : k < 16)
    (hcrc : crc ([27, 27, 27, 27, 1, 1, 1, 1] ++ payload ++ padding ++ [27, 27, 27, 27, 26, pp])
      = c2 * 256 + c1)
    (hscan2 : scanOk 0 (payload2 ++ padding2) = true)
    (hpp2 : pp2 = padding2.length)
    (hcrc2 : crc ([27, 27, 27, 27, 1, 1, 1, 1] ++ payload2 ++ padding2 ++ [27, 27, 27, 27, 26, pp2])
      = d2 * 256 + d1)
    (hparse2 : parse "smlFile" (-1) payload2 = (.ok v2, rest2)) :
    feedBytes Sml.init (mkFrame payload padding pp
        (if k < 8 then c1 ^^^ (1 <<< k) else c1)
        (if k < 8 then c2 else c2 ^^^ (1 <<< (k - 8))))
      = .ok (List.replicate ((payload ++ padding).length + 16) false,
             { sml_file := .list [], data := [], esc_sequence := false, esc_count := 0,
               message_started := false }) ∧
    feedBytes { sml_file := .list [], data := [], esc_sequence := false, esc_count := 0,
                message_started := false } (mkFrame payload2 padding2 pp2 d1 d2)
      = .ok (List.replicate ((payload2 ++ padding2).length + 15) false ++ [true],
             { sml_file := v2, data := rest2, esc_sequence := false, esc_count := 0,
               message_started := false }) := by
  constructor
  · apply feed_frame_bad Sml.init payload padding pp _ _ rfl rfl hscan
    rw [hcrc]
    by_cases hk8 : k < 8
    · simp only [if_pos hk8]
      intro hx
      have hc := Nat.add_left_cancel hx
      exact xor_shiftLeft_one_ne_self c1 k hc.symm
    · simp only [if_neg hk8]
      intro hx
      have hc := Nat.add_right_cancel hx
      have hc2 : c2 = c2 ^^^ (1 <<< (k - 8)) :=
        Nat.eq_of_mul_eq_mul_right (by norm_num : (0:Nat) < 256) hc
      exact xor_shiftLeft_one_ne_self c2 (k - 8) hc2.symm
  · exact feed_frame_ok _ payload2 padding2 pp2 d1 d2 v2 rest2 rfl rfl hscan2 hpp2 hcrc2 hparse2

theorem C4_crc_reject_and_resync_witness :
    feedBytes Sml.init (mkFrame [0x71, 0x01] [] 0 186 80)
      = .ok (List.replicate 18 false,
             { sml_file := .list [], data := [], esc_sequence := false, esc_count := 0,
               message_started := false }) ∧
    feedBytes { sml_file := .list [], data := [], esc_sequence := false, esc_count := 0,
                message_started := false } (mkFrame [0x71, 0x01] [] 0 187 80)
      = .ok (List.replicate 17 false ++ [true],
             { sml_file := .list [.dict [("endOfSmlMsg", .none)]], data := [],
               esc_sequence := false, esc_count := 0, message_started := false }) :=
  C4_crc_reject_and_resync [0x71, 0x01] [] 0 187 80 0 [0x71, 0x01] [] 0 187 80
    (.list [.dict [("endOfSmlMsg", .none)]]) [] rfl (by norm_num) rfl rfl rfl rfl rfl

/-! ### Claim C5: exception containment of `parse_byte` -/

/-- C5 (amended): the only exception kind the source contains inside a
`parse_byte` call is `SmlException`; whenever a call fails, the escaping
exception is never an `SmlException` (it is a KeyError / IndexError /
UnboundLocalError raised by the TLV decode of a CRC-validated frame). -/
theorem C5_sml_exception_contained (s : Sml) (b : Nat) (e : PyErr)
    (h : parse_byte s b = .error e) : ∀ m : String, ¬ e = .smlException m := by
  intro m he
  subst he
  simp only [parse_byte] at h
  by_cases c1 : s.esc_sequence = false
  · rw [if_pos c1] at h
    by_cases c2 : b = 27
    · rw [if_pos c2] at h
      by_cases c3 : s.esc_count + 1 = 4
      · rw [if_pos c3] at h; exact Except.noConfusion h
      · rw [if_neg c3] at h; exact Except.noConfusion h
    · rw [if_neg c2] at h; exact Except.noConfusion h
  · rw [if_neg c1] at h
    by_cases c4 : s.esc_count - 1 ≠ 0
    · rw [if_pos c4] at h; exact Except.noConfusion h
    · rw [if_neg c4] at h
      by_cases c5 : (s.data ++ [b]).drop ((s.data ++ [b]).length - 4) = [27, 27, 27, 27]
      · rw [if_pos c5] at h; exact Except.noConfusion h
      · rw [if_neg c5] at h
        by_cases c6 : (s.data ++ [b]).drop ((s.data ++ [b]).length - 4) = [1, 1, 1, 1]
        · rw [if_pos c6] at h; exact Except.noConfusion h
        · rw [if_neg c6] at h
          by_cases c7 : ((s.data ++ [b]).drop ((s.data ++ [b]).length - 4)).take 1 = [2]
          · rw [if_pos c7] at h; exact Except.noConfusion h
          · rw [if_neg c7] at h
            by_cases c8 : ((s.data ++ [b]).drop ((s.data ++ [b]).length - 4)).take 1 = [3]
            · rw [if_pos c8] at h; exact Except.noConfusion h
            · rw [if_neg c8] at h
              by_cases c9 : ((s.data ++ [b]).drop ((s.data ++ [b]).length - 4)).take 1 = [4]
              · rw [if_pos c9] at h; exact Except.noConfusion h
              · rw [if_neg c9] at h
                by_cases c10 : ((s.data ++ [b]).drop ((s.data ++ [b]).length - 4)).take 1 = [26]
                · rw [if_pos c10] at h
                  by_cases c11 : s.message_started = true
                  · rw [if_pos c11] at h
                    by_cases c12 : crc ((s.data ++ [b]).take ((s.data ++ [b]).length - 2))
                        = ((s.data ++ [b]).drop ((s.data ++ [b]).length - 4)).getD 3 0 * 256
                          + ((s.data ++ [b]).drop ((s.data ++ [b]).length - 4)).getD 2 0
                    · rw [if_pos c12] at h
                      rcases hpp : parse "smlFile" (-1)
                          (((s.data ++ [b]).drop 8).take
                            (((s.data ++ [b]).drop 8).length
                              - (8 + ((s.data ++ [b]).drop ((s.data ++ [b]).length - 4)).getD 1 0)))
                        with ⟨pr, pd⟩
                      rw [hpp] at h
                      cases pr with
                      | ok v => exact Except.noConfusion h
                      | error e2 =>
                        cases e2 with
                        | smlException mm => exact Except.noConfusion h
                        | keyError => exact PyErr.noConfusion (Except.error.inj h)
                        | indexError => exact PyErr.noConfusion (Except.error.inj h)
                        | unboundLocal => exact PyErr.noConfusion (Except.error.inj h)
                        | outOfFuel => exact PyErr.noConfusion (Except.error.inj h)
                    · rw [if_neg c12] at h; exact Except.noConfusion h
                  · rw [if_neg c11] at h; exact Except.noConfusion h
                · rw [if_neg c10] at h; exact Except.noConfusion h

theorem C5_sml_exception_contained_witness :
    parse_byte ⟨.list [], [27, 27, 27, 27, 1, 1, 1, 1, 0x7D, 0x01, 27, 27, 27, 27, 26, 0, 217],
        true, 1, true⟩ 107 = .error .indexError ∧
    ∀ m : String, ¬ PyErr.indexError = .smlException m :=
  ⟨rfl, C5_sml_exception_contained
    ⟨.list [], [27, 27, 27, 27, 1, 1, 1, 1, 0x7D, 0x01, 27, 27, 27, 27, 26, 0, 217],
      true, 1, true⟩ 107 .indexError rfl⟩

/-- C5 counterexample: a CRC-valid frame whose payload drives the struct field
index out of range (`smlMessage` with a declared element count of 13) makes the
`parse_byte` call raise an IndexError instead of returning a boolean. -/
theorem C5_exception_escape_refuted :
    crc ((mkFrame [0x7D, 0x01] [] 0 217 107).take 16) = 107 * 256 + 217 ∧
    feedBytes Sml.init (mkFrame [0x7D, 0x01] [] 0 217 107) = .error .indexError :=
  ⟨rfl, rfl⟩

/-! ### TLV decoder helpers -/

theorem parse_cons_eq (struct : String) (elements : Int) (b : Nat) (rest : List Nat) :
    parse struct elements (b :: rest)
      = parseLoop (rest.length + 1 + 1) struct elements (b :: rest) [] [] Option.none := rfl

theorem readTL_no_cont (tl tl_len tl_bytes : Nat) (data : List Nat) (h : tl &&& 0x80 = 0) :
    readTL tl tl_len tl_bytes data = .ok (tl, tl_len, tl_bytes, data) := by
  cases data <;> simp [readTL, h]

/-! ### Claim C7: graceful truncation of the decode loop -/

/-- C7 (amended): once the loop has completed at least one iteration (the
Python local `etyp` is bound, here `some t`), exhausting the buffered data or
the element budget returns the partial List or Struct accumulated so far; with
zero completed iterations (empty buffer or zero budget at entry) the source
instead raises UnboundLocalError. -/
theorem C7_truncation_partial_result (fuel : Nat) (struct : String) (elements : Int)
    (data : List Nat) (sml_list : List SmlValue) (sml_dict : List (String × SmlValue))
    (t : NodeKind) (h : data = [] ∨ elements = 0) :
    parseLoop fuel struct elements data sml_list sml_dict (some t)
      = (.ok (match t with | .list => .list sml_list | .struct => .dict sml_dict), data) := by
  rcases h with h | h
  · subst h
    cases fuel with
    | zero => cases t <;> simp [parseLoop]
    | succ f => cases t <;> simp [parseLoop]
  · subst h
    cases fuel with
    | zero => cases t <;> simp [parseLoop]
    | succ f => cases t <;> simp [parseLoop]

theorem C7_truncation_partial_result_witness :
    parseLoop 3 "smlFile" 5 [] [.int 7] [] (some .list) = (.ok (.list [.int 7]), []) :=
  C7_truncation_partial_result 3 "smlFile" 5 [] [.int 7] [] .list (Or.inl rfl)

/-- C7 counterexample: with an empty buffer at entry (or a zero budget), no
element is decoded and `parse` raises UnboundLocalError on the unbound `etyp`
instead of returning a partial result. -/
theorem C7_zero_iteration_refuted :
    parse "smlFile" (-1) [] = (.error .unboundLocal, []) ∧
    parse "smlMessage" 0 [0x01] = (.error .unboundLocal, [0x01]) :=
  ⟨rfl, rfl⟩

/-! ### Claim C9: the octetString branch -/

/-- C9: in the octetString branch, payload length 0 decodes to the absent
value `None` (distinct from an empty byte string); the bare tag byte 0x00
decodes to the single byte 0x00 (end-of-message sentinel); any other octet
string with positive payload length decodes to exactly its payload bytes. -/
theorem C9_octet_string_branch :
    (∀ (tl : Nat) (rest : List Nat), tl &&& 0x80 = 0 → tl &&& 0x70 = 0 → tl &&& 0x0F = 1 →
      parse "smlFile" 1 (tl :: rest) = (.ok (.list [.none]), rest)) ∧
    (¬ SmlValue.none = SmlValue.bytes []) ∧
    (∀ rest : List Nat, parse "smlFile" 1 (0x00 :: rest) = (.ok (.list [.bytes [0]]), rest)) ∧
    (∀ (tl n : Nat) (rest : List Nat), tl &&& 0x80 = 0 → tl &&& 0x70 = 0 → tl &&& 0x0F = n →
      2 ≤ n → n - 1 ≤ rest.length →
      parse "smlFile" 1 (tl :: rest)
        = (.ok (.list [.bytes (rest.take (n - 1))]), rest.drop (n - 1))) := by
  refine ⟨?_, ?_, ?_, ?_⟩
  · intro tl rest h80 h70 h0f
    rw [parse_cons_eq]
    simp [parseLoop, readTL_no_cont _ _ _ _ h80, sml_struct, h70, h0f]
  · intro h
    exact SmlValue.noConfusion h
  · intro rest
    rw [parse_cons_eq]
    simp [parseLoop, readTL_no_cont _ _ _ _ (by norm_num : (0 : Nat) &&& 0x80 = 0), sml_struct]
  · intro tl n rest h80 h70 h0f hn hlen
    rw [parse_cons_eq]
    have htl0 : ¬ tl = 0 := by
      intro h0
      rw [h0] at h0f
      simp at h0f
      omega
    have hn0 : ¬ n = 0 := by omega
    have hd : ¬ ((n : Int) - 1 = 0) := by omega
    simp [parseLoop, readTL_no_cont _ _ _ _ h80, sml_struct, h70, h0f, htl0, hd, hn0,
      pop_data, pySliceIdx, Nat.min_eq_left hlen]

theorem C9_octet_string_branch_witness :
    parse "smlFile" 1 [0x01, 5] = (.ok (.list [.none]), [5]) ∧
    parse "smlFile" 1 [0x00, 7] = (.ok (.list [.bytes [0]]), [7]) ∧
    parse "smlFile" 1 [0x03, 9, 8] = (.ok (.list [.bytes [9, 8]]), []) :=
  ⟨C9_octet_string_branch.1 0x01 [5] rfl rfl rfl,
   C9_octet_string_branch.2.2.1 [7],
   C9_octet_string_branch.2.2.2 0x03 3 [9, 8] rfl rfl rfl (by norm_num) (by norm_num)⟩

/-! ### Claim C10: totality of pop_data and defaults on missing payload -/

/-- C10: `pop_data` returns whatever prefix of the buffer is available for any
requested (non-negative) payload length, without raising; consequently a
signedInt or unsignedInt TLV whose payload bytes are entirely missing decodes
to the integer 0, and a boolean TLV with missing payload decodes to false. -/
theorem C10_pop_data_total_and_defaults :
    (∀ (n : Nat) (data : List Nat), pop_data (n : Int) data = (data.take n, data.drop n)) ∧
    (∀ tl : Nat, tl &&& 0x80 = 0 → tl &&& 0x70 = 0x50 →
      parse "smlFile" 1 [tl] = (.ok (.list [.int 0]), [])) ∧
    (∀ tl : Nat, tl &&& 0x80 = 0 → tl &&& 0x70 = 0x60 →
      parse "smlFile" 1 [tl] = (.ok (.list [.int 0]), [])) ∧
    (∀ tl : Nat, tl &&& 0x80 = 0 → tl &&& 0x70 = 0x40 →
      parse "smlFile" 1 [tl] = (.ok (.list [.bool false]), [])) := by
  refine ⟨?_, ?_, ?_, ?_⟩
  · intro n data
    have hnn : ¬ ((n : Int) < 0) := by omega
    have hidx : pySliceIdx data.length (n : Int) = min n data.length := by
      simp [pySliceIdx, hnn]
    rcases Nat.le_total n data.length with h | h
    · simp [pop_data, hidx, Nat.min_eq_left h]
    · simp [pop_data, hidx, Nat.min_eq_right h, List.take_length, List.drop_length,
        List.take_of_length_le h, List.drop_eq_nil_of_le h]
  · intro tl h80 h70
    rw [parse_cons_eq]
    simp [parseLoop, readTL_no_cont _ _ _ _ h80, sml_struct, h70, pop_data, pySliceIdx,
      bytesToIntSigned, bytesToNat]
  · intro tl h80 h70
    rw [parse_cons_eq]
    simp [parseLoop, readTL_no_cont _ _ _ _ h80, sml_struct, h70, pop_data, pySliceIdx,
      bytesToNat]
  · intro tl h80 h70
    rw [parse_cons_eq]
    simp [parseLoop, readTL_no_cont _ _ _ _ h80, sml_struct, h70, pop_data, pySliceIdx,
      bytesToNat]

theorem C10_pop_data_total_and_defaults_witness :
    pop_data (5 : Nat) [1, 2, 3] = ([1, 2, 3], []) ∧
    parse "smlFile" 1 [0x53] = (.ok (.list [.int 0]), []) ∧
    parse "smlFile" 1 [0x64] = (.ok (.list [.int 0]), []) ∧
    parse "smlFile" 1 [0x42] = (.ok (.list [.bool false]), []) :=
  ⟨C10_pop_data_total_and_defaults.1 5 [1, 2, 3],
   C10_pop_data_total_and_defaults.2.1 0x53 rfl rfl,
   C10_pop_data_total_and_defaults.2.2.1 0x64 rfl rfl,
   C10_pop_data_total_and_defaults.2.2.2 0x42 rfl rfl⟩

/-! ### Claim C6: the unknown-TLV-tag branch -/

/-- C6 (amended): when the decoder reads a type-length byte whose tag is none
of the five known ones (here: 0x10/0x20/0x30, no continuation bit), it stores
no value and replaces the buffer by `data[data_len:]` (skipping the payload
bytes when the payload length is non-negative), but it does NOT decrement the
element budget: the loop continues with `elements` unchanged. -/
theorem C6_unknown_tag_no_budget_decrement (fuel : Nat) (struct : String) (elements : Int)
    (tl : Nat) (rest : List Nat) (sml_list : List SmlValue)
    (sml_dict : List (String × SmlValue)) (etyp : Option NodeKind)
    (nd : NodeDef) (ekind : NodeKind) (elem : String)
    (helems : ¬ elements = 0)
    (hnd : sml_struct struct = some nd)
    (hres : (match nd with
             | NodeDef.list nm => Except.ok (NodeKind.list, nm)
             | NodeDef.struct names =>
               match resolveElem names elements sml_dict with
               | Except.error e => Except.error e
               | Except.ok nm => Except.ok (NodeKind.struct, nm))
        = Except.ok (ekind, elem))
    (hcont : tl &&& 0x80 = 0)
    (htag : tl &&& 0x70 = 0x10 ∨ tl &&& 0x70 = 0x20 ∨ tl &&& 0x70 = 0x30) :
    parseLoop (fuel + 1) struct elements (tl :: rest) sml_list sml_dict etyp
      = parseLoop fuel struct elements (pySliceFrom rest (((tl &&& 0x0F : Nat) : Int) - 1))
          sml_list sml_dict (some ekind) := by
  rcases htag with h | h | h <;>
    simp [parseLoop, helems, hnd, hres, readTL_no_cont _ _ _ _ hcont, h]

theorem C6_unknown_tag_no_budget_decrement_witness :
    parseLoop 2 "smlFile" 1 [0x12, 0x42, 0x42] [] [] Option.none
      = parseLoop 1 "smlFile" 1 (pySliceFrom [0x42, 0x42] (((0x12 &&& 0x0F : Nat) : Int) - 1))
          [] [] (some .list) :=
  C6_unknown_tag_no_budget_decrement 1 "smlFile" 1 0x12 [0x42, 0x42] [] [] Option.none
    (.list "smlMessage") .list "smlMessage" (by norm_num) rfl rfl rfl (Or.inl rfl)

/-- C6 counterexample: with element budget 1 and an unknown tag 0x12 (payload
length 1) followed by a boolean TLV, the code decodes the boolean too — the
unknown element did not count against the budget.  Under the claim the loop
would have stopped after the unknown element with budget 0, returning the
empty list with the boolean TLV bytes still buffered. -/
theorem C6_budget_decrement_refuted :
    parse "smlFile" 1 [0x12, 0x42, 0x42] = (.ok (.list [.bool false]), []) ∧
    ¬ parse "smlFile" 1 [0x12, 0x42, 0x42] = (.ok (.list []), [0x42]) := by
  refine ⟨rfl, ?_⟩
  intro h
  have h2 : ((Except.ok (SmlValue.list [SmlValue.bool false]) : Except PyErr SmlValue),
      ([] : List Nat)) = (Except.ok (SmlValue.list []), [0x42]) := by
    rw [← h]
    rfl
  simp at h2

/-! ### Claim C8: discriminant resolution -/

/-- The `[timeId]` placeholder resolution of `Sml.parse`, fully computed except
for the dict lookup (the position is the second field of a two-field struct,
reached when `elements = 1`). -/
theorem resolveElem_timeId (d : List (String × SmlValue)) :
    resolveElem ["timeId", "[timeId]"] 1 d
      = match ((dictGet d "timeId").bind valueAsKey).bind (key_names "timeId") with
        | Option.none => .ok "time"
        | some key_str =>
          if (sml_struct ("" ++ key_str)).isSome then .ok ("" ++ key_str) else .ok "time" := rfl

/-- C8 (amended): with the sibling `timeId` decoded to 1 the placeholder
position resolves to schema node `secIndex`; to 2, `timestamp`; a discriminant
value with no table entry falls back to the base name `time` obtained by
stripping the `Id` suffix.  That name is absent from the schema — and instead
of a frame-contained ProtocolError, using it for a nested (list-typed) element
raises a KeyError that propagates out of the decode. -/
theorem C8_discriminant_resolution :
    (∀ d : List (String × SmlValue), dictGet d "timeId" = some (.int 1) →
      resolveElem ["timeId", "[timeId]"] 1 d = .ok "secIndex") ∧
    (∀ d : List (String × SmlValue), dictGet d "timeId" = some (.int 2) →
      resolveElem ["timeId", "[timeId]"] 1 d = .ok "timestamp") ∧
    (∀ (d : List (String × SmlValue)) (v : Int), dictGet d "timeId" = some (.int v) →
      key_names "timeId" v = Option.none →
      resolveElem ["timeId", "[timeId]"] 1 d = .ok "time") ∧
    sml_struct "time" = Option.none ∧
    parse "refTime" 2 [0x62, 0x05, 0x71, 0x01] = (.error .keyError, [0x01]) := by
  refine ⟨?_, ?_, ?_, rfl, rfl⟩
  · intro d h
    rw [resolveElem_timeId, h]
    rfl
  · intro d h
    rw [resolveElem_timeId, h]
    rfl
  · intro d v h hv
    rw [resolveElem_timeId, h]
    simp [valueAsKey, hv]

theorem C8_discriminant_resolution_witness :
    resolveElem ["timeId", "[timeId]"] 1 [("timeId", .int 1)] = .ok "secIndex" ∧
    resolveElem ["timeId", "[timeId]"] 1 [("timeId", .int 2)] = .ok "timestamp" ∧
    resolveElem ["timeId", "[timeId]"] 1 [("timeId", .int 5)] = .ok "time" :=
  ⟨C8_discriminant_resolution.1 [("timeId", .int 1)] rfl,
   C8_discriminant_resolution.2.1 [("timeId", .int 2)] rfl,
   C8_discriminant_resolution.2.2.1 [("timeId", .int 5)] 5 rfl rfl⟩

/-- C8 counterexample: a CRC-valid frame whose payload carries
`timeId = 5` followed by a list-typed placeholder position makes the whole
`parse_byte` call raise KeyError — the failure is not a ProtocolError
contained to the current frame. -/
theorem C8_protocol_error_refuted :
    feedBytes Sml.init (mkFrame
        [0x76, 0x01, 0x01, 0x01, 0x72, 0x63, 0x01, 0x01, 0x76, 0x01, 0x01, 0x01, 0x01,
         0x72, 0x62, 0x05, 0x71, 0x01] [] 0 73 211)
      = .error .keyError := rfl

/-- Reading continuation TL bytes never lengthens the remaining buffer. -/
theorem readTL_rest_length : ∀ (data : List Nat) (tl a b tlF tl_len tl_bytes : Nat)
    (rest : List Nat), readTL tl a b data = .ok (tlF, tl_len, tl_bytes, rest) →
    rest.length ≤ data.length := by
  intro data
  induction data with
  | nil =>
    intro tl a b tlF tl_len tl_bytes rest h
    simp only [readTL] at h
    by_cases hc : tl &&& 128 = 0
    · rw [if_pos hc] at h
      cases h
      exact Nat.le_refl _
    · rw [if_neg hc] at h
      exact Except.noConfusion h
  | cons t ts ih =>
    intro tl a b tlF tl_len tl_bytes rest h
    simp only [readTL] at h
    by_cases hc : tl &&& 128 = 0
    · rw [if_pos hc] at h
      cases h
      exact Nat.le_refl _
    · rw [if_neg hc] at h
      have := ih _ _ _ _ _ _ _ h
      simp only [List.length_cons]
      omega

theorem pop_data_rest_length (i : Int) (x : List Nat) : ((pop_data i x).2).length ≤ x.length := by
  simp [pop_data]

theorem pySliceFrom_length (x : List Nat) (i : Int) : (pySliceFrom x i).length ≤ x.length := by
  simp [pySliceFrom]

/-- Every run of the decoder loop leaves a buffer no longer than its input:
each iteration of the Python `while` consumes at least the TL byte it pops. -/
theorem parseLoop_data_length : ∀ (fuel : Nat) (struct : String) (elements : Int)
    (data : List Nat) (sl : List SmlValue) (sd : List (String × SmlValue))
    (ty : Option NodeKind),
    ((parseLoop fuel struct elements data sl sd ty).2).length ≤ data.length := by
  intro fuel
  induction fuel with
  | zero =>
    intro struct elements data sl sd ty
    simp only [parseLoop]
    split <;> simp
  | succ f ih =>
    intro struct elements data sl sd ty
    simp only [parseLoop]
    by_cases hg : data.isEmpty = true ∨ elements = 0
    · rw [if_pos hg]
    · rw [if_neg hg]
      cases hnd : sml_struct struct with
      | none => simp [hnd]
      | some nd =>
        have hdisp : ∀ (ekind : NodeKind) (elem : String),
            ((match data with
              | [] => ((Except.error PyErr.indexError : Except PyErr SmlValue), data)
              | tl0 :: d1 =>
                match readTL tl0 (tl0 &&& 0x0F) 1 d1 with
                | .error e => (.error e, d1)
                | .ok (tlF, tl_len, tl_bytes, d1) =>
                  let tl_typ := tl0 &&& 0x70
                  let data_len : Int := (tl_len : Int) - (tl_bytes : Int)
                  let store : SmlValue → List SmlValue × List (String × SmlValue) := fun v =>
                    match ekind with
                    | .list => (sl ++ [v], sd)
                    | .struct => (sl, dictSet sd elem v)
                  if tl_typ = 0x00 then
                    let v : SmlValue :=
                      if data_len = 0 then .none
                      else if tlF = 0 then .bytes [0]
                      else .bytes (pop_data data_len d1).1
                    let d2 := if data_len = 0 ∨ tlF = 0 then d1 else (pop_data data_len d1).2
                    parseLoop f struct (elements - 1) d2 (store v).1 (store v).2 (some ekind)
                  else if tl_typ = 0x40 then
                    let p := pop_data data_len d1
                    let v : SmlValue := .bool (bytesToNat p.1 != 0)
                    parseLoop f struct (elements - 1) p.2 (store v).1 (store v).2 (some ekind)
                  else if tl_typ = 0x50 then
                    let p := pop_data data_len d1
                    let v : SmlValue := .int (bytesToIntSigned p.1)
                    parseLoop f struct (elements - 1) p.2 (store v).1 (store v).2 (some ekind)
                  else if tl_typ = 0x60 then
                    let p := pop_data data_len d1
                    let v : SmlValue := .int ((bytesToNat p.1 : Int))
                    parseLoop f struct (elements - 1) p.2 (store v).1 (store v).2 (some ekind)
                  else if tl_typ = 0x70 then
                    match parseLoop f elem (tl_len : Int) d1 [] [] Option.none with
                    | (.error e, d2) => (.error e, d2)
                    | (.ok v, d2) =>
                      parseLoop f struct (elements - 1) d2 (store v).1 (store v).2 (some ekind)
                  else
                    parseLoop f struct elements (pySliceFrom d1 data_len) sl sd
                      (some ekind)).2).length ≤ data.length := by
          intro ekind elem
          cases data with
          | nil => simp
          | cons tl0 d1 =>
            cases hrt : readTL tl0 (tl0 &&& 0x0F) 1 d1 with
            | error e => simp [hrt]
            | ok q =>
              obtain ⟨tlF, tl_len, tl_bytes, d1x⟩ := q
              have hlen := readTL_rest_length d1 tl0 (tl0 &&& 0x0F) 1 tlF tl_len tl_bytes d1x hrt
              have step : ∀ (A : String) (B : Int) (Dx : List Nat) (X : List SmlValue)
                  (Y : List (String × SmlValue)) (Z : Option NodeKind),
                  Dx.length ≤ d1.length →
                  ((parseLoop f A B Dx X Y Z).2).length ≤ (tl0 :: d1).length := by
                intro A B Dx X Y Z hD
                calc ((parseLoop f A B Dx X Y Z).2).length ≤ Dx.length := ih A B Dx X Y Z
                  _ ≤ d1.length := hD
                  _ ≤ (tl0 :: d1).length := by simp
              simp only [hrt]
              by_cases t0 : tl0 &&& 0x70 = 0x00
              · rw [if_pos t0]
                apply step
                by_cases hc : ((tl_len : Int) - (tl_bytes : Int) = 0) ∨ tlF = 0
                · rw [if_pos hc]; exact hlen
                · rw [if_neg hc]
                  exact le_trans (pop_data_rest_length _ _) hlen
              · rw [if_neg t0]
                by_cases t4 : tl0 &&& 0x70 = 0x40
                · rw [if_pos t4]
                  exact step _ _ _ _ _ _ (le_trans (pop_data_rest_length _ _) hlen)
                · rw [if_neg t4]
                  by_cases t5 : tl0 &&& 0x70 = 0x50
                  · rw [if_pos t5]
                    exact step _ _ _ _ _ _ (le_trans (pop_data_rest_length _ _) hlen)
                  · rw [if_neg t5]
                    by_cases t6 : tl0 &&& 0x70 = 0x60
                    · rw [if_pos t6]
                      exact step _ _ _ _ _ _ (le_trans (pop_data_rest_length _ _) hlen)
                    · rw [if_neg t6]
                      by_cases t7 : tl0 &&& 0x70 = 0x70
                      · rw [if_pos t7]
                        cases hn : parseLoop f elem (tl_len : Int) d1x [] [] Option.none with
                        | mk r2 d2 =>
                          have hd2 : d2.length ≤ d1x.length := by
                            have := ih elem (tl_len : Int) d1x [] [] Option.none
                            rw [hn] at this
                            exact this
                          cases r2 with
                          | error e =>
                            simp only [hn, List.length_cons]
                            omega
                          | ok v =>
                            simp only [hn]
                            exact step _ _ _ _ _ _ (le_trans hd2 hlen)
                      · rw [if_neg t7]
                        exact step _ _ _ _ _ _ (le_trans (pySliceFrom_length _ _) hlen)
        cases nd with
        | list nm =>
          simp only [hnd]
          exact hdisp .list nm
        | struct names =>
          cases hres : resolveElem names elements sd with
          | error e => simp [hnd, hres]
          | ok nm =>
            simp only [hnd, hres]
            exact hdisp .struct nm

/-- Fuel independence: any fuel exceeding the buffer length yields the same
result, so `parse`'s choice of `data.length + 1` is faithful to the unfueled
Python loop (which terminates because every iteration consumes a byte). -/
theorem parseLoop_fuel_mono : ∀ (f1 : Nat) (struct : String) (elements : Int)
    (data : List Nat) (sl : List SmlValue) (sd : List (String × SmlValue))
    (ty : Option NodeKind) (f2 : Nat), data.length < f1 → data.length < f2 →
    parseLoop f1 struct elements data sl sd ty = parseLoop f2 struct elements data sl sd ty := by
  intro f1
  induction f1 with
  | zero =>
    intro struct elements data sl sd ty f2 h1 h2
    exact absurd h1 (Nat.not_lt_zero _)
  | succ f ih =>
    intro struct elements data sl sd ty f2 h1 h2
    cases f2 with
    | zero => exact absurd h2 (Nat.not_lt_zero _)
    | succ g =>
      simp only [parseLoop]
      by_cases hg : data.isEmpty = true ∨ elements = 0
      · rw [if_pos hg, if_pos hg]
      · rw [if_neg hg, if_neg hg]
        cases data with
        | nil => exact absurd (Or.inl rfl) hg
        | cons tl0 d1 =>
          have hd1f : d1.length < f := by
            simp only [List.length_cons] at h1
            omega
          have hd1g : d1.length < g := by
            simp only [List.length_cons] at h2
            omega
          cases hnd : sml_struct struct with
          | none => simp [hnd]
          | some nd =>
            cases hrt : readTL tl0 (tl0 &&& 0x0F) 1 d1 with
            | error e =>
              cases nd with
              | list nm => simp [hnd, hrt]
              | struct names =>
                cases hres : resolveElem names elements sd with
                | error e2 => simp [hnd, hres]
                | ok nm => simp [hnd, hres, hrt]
            | ok q =>
              obtain ⟨tlF, tl_len, tl_bytes, d1x⟩ := q
              have hlen := readTL_rest_length d1 tl0 (tl0 &&& 0x0F) 1 tlF tl_len tl_bytes d1x hrt
              have step : ∀ (A : String) (B : Int) (Dx : List Nat) (X : List SmlValue)
                  (Y : List (String × SmlValue)) (Z : Option NodeKind),
                  Dx.length ≤ d1.length →
                  parseLoop f A B Dx X Y Z = parseLoop g A B Dx X Y Z := by
                intro A B Dx X Y Z hD
                exact ih A B Dx X Y Z g (by omega) (by omega)
              have hdisp : ∀ (SL : SmlValue → List SmlValue)
                  (SD : SmlValue → List (String × SmlValue)) (ek : NodeKind) (elem : String),
                  (if tl0 &&& 0x70 = 0x00 then
                     parseLoop f struct (elements - 1)
                       (if (tl_len : Int) - (tl_bytes : Int) = 0 ∨ tlF = 0 then d1x
                        else (pop_data ((tl_len : Int) - (tl_bytes : Int)) d1x).2)
                       (SL (if (tl_len : Int) - (tl_bytes : Int) = 0 then SmlValue.none
                            else if tlF = 0 then SmlValue.bytes [0]
                            else SmlValue.bytes
                              (pop_data ((tl_len : Int) - (tl_bytes : Int)) d1x).1))
                       (SD (if (tl_len : Int) - (tl_bytes : Int) = 0 then SmlValue.none
                            else if tlF = 0 then SmlValue.bytes [0]
                            else SmlValue.bytes
                              (pop_data ((tl_len : Int) - (tl_bytes : Int)) d1x).1))
                       (some ek)
                   else if tl0 &&& 0x70 = 0x40 then
                     parseLoop f struct (elements - 1)
                       (pop_data ((tl_len : Int) - (tl_bytes : Int)) d1x).2
                       (SL (.bool (bytesToNat
                         (pop_data ((tl_len : Int) - (tl_bytes : Int)) d1x).1 != 0)))
                       (SD (.bool (bytesToNat
                         (pop_data ((tl_len : Int) - (tl_bytes : Int)) d1x).1 != 0)))
                       (some ek)
                   else if tl0 &&& 0x70 = 0x50 then
                     parseLoop f struct (elements - 1)
                       (pop_data ((tl_len : Int) - (tl_bytes : Int)) d1x).2
                       (SL (.int (bytesToIntSigned
                         (pop_data ((tl_len : Int) - (tl_bytes : Int)) d1x).1)))
                       (SD (.int (bytesToIntSigned
                         (pop_data ((tl_len : Int) - (tl_bytes : Int)) d1x).1)))
                       (some ek)
                   else if tl0 &&& 0x70 = 0x60 then
                     parseLoop f struct (elements - 1)
                       (pop_data ((tl_len : Int) - (tl_bytes : Int)) d1x).2
                       (SL (.int ((bytesToNat
                         (pop_data ((tl_len : Int) - (tl_bytes : Int)) d1x).1 : Int))))
                       (SD (.int ((bytesToNat
                         (pop_data ((tl_len : Int) - (tl_bytes : Int)) d1x).1 : Int))))
                       (some ek)
                   else if tl0 &&& 0x70 = 0x70 then
                     match parseLoop f elem (tl_len : Int) d1x [] [] Option.none with
                     | (.error e, d2) => ((.error e : Except PyErr SmlValue), d2)
                     | (.ok v, d2) =>
                       parseLoop f struct (elements - 1) d2 (SL v) (SD v) (some ek)
                   else
                     parseLoop f struct elements
                       (pySliceFrom d1x ((tl_len : Int) - (tl_bytes : Int))) sl sd (some ek))
                  = (if tl0 &&& 0x70 = 0x00 then
                       parseLoop g struct (elements - 1)
                         (if (tl_len : Int) - (tl_bytes : Int) = 0 ∨ tlF = 0 then d1x
                          else (pop_data ((tl_len : Int) - (tl_bytes : Int)) d1x).2)
                         (SL (if (tl_len : Int) - (tl_bytes : Int) = 0 then SmlValue.none
                              else if tlF = 0 then SmlValue.bytes [0]
                              else SmlValue.bytes
                                (pop_data ((tl_len : Int) - (tl_bytes : Int)) d1x).1))
                         (SD (if (tl_len : Int) - (tl_bytes : Int) = 0 then SmlValue.none
                              else if tlF = 0 then SmlValue.bytes [0]
                              else SmlValue.bytes
                                (pop_data ((tl_len : Int) - (tl_bytes : Int)) d1x).1))
                         (some ek)
                     else if tl0 &&& 0x70 = 0x40 then
                       parseLoop g struct (elements - 1)
                         (pop_data ((tl_len : Int) - (tl_bytes : Int)) d1x).2
                         (SL (.bool (bytesToNat
                           (pop_data ((tl_len : Int) - (tl_bytes : Int)) d1x).1 != 0)))
                         (SD (.bool (bytesToNat
                           (pop_data ((tl_len : Int) - (tl_bytes : Int)) d1x).1 != 0)))
                         (some ek)
                     else if tl0 &&& 0x70 = 0x50 then
                       parseLoop g struct (elements - 1)
                         (pop_data ((tl_len : Int) - (tl_bytes : Int)) d1x).2
                         (SL (.int (bytesToIntSigned
                           (pop_data ((tl_len : Int) - (tl_bytes : Int)) d1x).1)))
                         (SD (.int (bytesToIntSigned
                           (pop_data ((tl_len : Int) - (tl_bytes : Int)) d1x).1)))
                         (some ek)
                     else if tl0 &&& 0x70 = 0x60 then
                       parseLoop g struct (elements - 1)
                         (pop_data ((tl_len : Int) - (tl_bytes : Int)) d1x).2
                         (SL (.int ((bytesToNat
                           (pop_data ((tl_len : Int) - (tl_bytes : Int)) d1x).1 : Int))))
                         (SD (.int ((bytesToNat
                           (pop_data ((tl_len : Int) - (tl_bytes : Int)) d1x).1 : Int))))
                         (some ek)
                     else if tl0 &&& 0x70 = 0x70 then
                       match parseLoop g elem (tl_len : Int) d1x [] [] Option.none with
                       | (.error e, d2) => ((.error e : Except PyErr SmlValue), d2)
                       | (.ok v, d2) =>
                         parseLoop g struct (elements - 1) d2 (SL v) (SD v) (some ek)
                     else
                       parseLoop g struct elements
                         (pySliceFrom d1x ((tl_len : Int) - (tl_bytes : Int))) sl sd
                         (some ek)) := by
                intro SL SD ek elem
                by_cases t0 : tl0 &&& 0x70 = 0x00
                · rw [if_pos t0, if_pos t0]
                  apply step
                  by_cases hc : ((tl_len : Int) - (tl_bytes : Int) = 0) ∨ tlF = 0
                  · rw [if_pos hc]; exact hlen
                  · rw [if_neg hc]
                    exact le_trans (pop_data_rest_length _ _) hlen
                · rw [if_neg t0, if_neg t0]
                  by_cases t4 : tl0 &&& 0x70 = 0x40
                  · rw [if_pos t4, if_pos t4]
                    exact step _ _ _ _ _ _ (le_trans (pop_data_rest_length _ _) hlen)
                  · rw [if_neg t4, if_neg t4]
                    by_cases t5 : tl0 &&& 0x70 = 0x50
                    · rw [if_pos t5, if_pos t5]
                      exact step _ _ _ _ _ _ (le_trans (pop_data_rest_length _ _) hlen)
                    · rw [if_neg t5, if_neg t5]
                      by_cases t6 : tl0 &&& 0x70 = 0x60
                      · rw [if_pos t6, if_pos t6]
                        exact step _ _ _ _ _ _ (le_trans (pop_data_rest_length _ _) hlen)
                      · rw [if_neg t6, if_neg t6]
                        by_cases t7 : tl0 &&& 0x70 = 0x70
                        · rw [if_pos t7, if_pos t7]
                          have hnest : parseLoop f elem (tl_len : Int) d1x [] [] Option.none
                              = parseLoop g elem (tl_len : Int) d1x [] [] Option.none :=
                            step _ _ _ _ _ _ hlen
                          rw [← hnest]
                          cases hn : parseLoop f elem (tl_len : Int) d1x [] [] Option.none with
                          | mk r2 d2 =>
                            have hd2 : d2.length ≤ d1x.length := by
                              have := parseLoop_data_length f elem (tl_len : Int) d1x [] []
                                Option.none
                              rw [hn] at this
                              exact this
                            cases r2 with
                            | error e => rfl
                            | ok v => exact step _ _ _ _ _ _ (le_trans hd2 hlen)
                        · rw [if_neg t7, if_neg t7]
                          exact step _ _ _ _ _ _ (le_trans (pySliceFrom_length _ _) hlen)
              cases nd with
              | list nm =>
                simp only [hnd, hrt]
                exact hdisp (fun v => sl ++ [v]) (fun _ => sd) .list nm
              | struct names =>
                cases hres : resolveElem names elements sd with
                | error e => simp [hnd, hres]
                | ok nm =>
                  simp only [hnd, hres, hrt]
                  exact hdisp (fun _ => sl) (fun v => dictSet sd nm v) .struct nm
